import Mathlib

/-!
Shallow embedding of the `modal-infra` auth and image-builder modules.

Source files:
* `packages/modal-infra/src/auth/internal.py`
* `packages/modal-infra/src/scheduler/image_builder.py`

Python strings are modelled by Lean `String` (a sequence of characters);
the Python string operations used by the source (`startswith`, slicing,
`split(".")`, `int(...)`, `str(int)`, `.lower()`, `.strip()`) are given
explicit executable models below.  Wall-clock time is modelled in integer
milliseconds (the token itself stores integer milliseconds; the verifier's
floating-point comparison `abs(now_s - ts_ms/1000) > 300` is scaled by 1000
to the exact integer comparison `|now_ms - ts_ms| > 300000`).  The HMAC-SHA256
primitive from the Python standard library is an abstract parameter
`hmac : String → String → String` (secret → message → hex digest) of every
definition that uses it.
-/

/-- Model of Python `s.startswith(pre)`. -/
def pyStartsWith (s pre : String) : Bool :=
  pre.data.isPrefixOf s.data

/-- Model of Python slicing `s[n:]` (drop the first `n` characters). -/
def pyDrop (s : String) (n : Nat) : String :=
  ⟨s.data.drop n⟩

/-- Character-list worker for Python `s.split(sep)` with a one-character
separator: split on `sep`, keeping empty groups, as Python does for a
non-empty separator. -/
def splitChars (sep : Char) : List Char → List (List Char)
  | [] => [[]]
  | c :: cs =>
    if c = sep then [] :: splitChars sep cs
    else
      match splitChars sep cs with
      | [] => [[c]]
      | g :: gs => (c :: g) :: gs

/-- Model of Python `s.split(".")`. -/
def pySplitDot (s : String) : List String :=
  (splitChars '.' s.data).map String.mk

/-- Model of Python `s.strip()`: remove leading and trailing whitespace. -/
def pyStrip (s : String) : String :=
  ⟨((s.data.dropWhile Char.isWhitespace).reverse.dropWhile
      Char.isWhitespace).reverse⟩

/-- Model of Python `url.rsplit("/", 1)[0]`: everything before the final
slash, or the whole string when it contains no slash. -/
def pyRsplitSlashParent (s : String) : String :=
  match (splitChars '/' s.data).dropLast with
  | [] => s
  | ps => ⟨List.intercalate ['/'] ps⟩

/-- Fuel-indexed worker computing the decimal digits (most significant first)
of a natural number; any `fuel > n` is enough, see `natDigitsAux_congr`. -/
def natDigitsAux (fuel n : Nat) : List Char :=
  match fuel with
  | 0 => []
  | fuel + 1 =>
    if n < 10 then [Char.ofNat (48 + n)]
    else natDigitsAux fuel (n / 10) ++ [Char.ofNat (48 + n % 10)]

/-- Decimal digits (most significant first) of a natural number, as the
characters Python's `str` would print. -/
def natDigits (n : Nat) : List Char :=
  natDigitsAux (n + 1) n

/-- Model of Python `str(n)` for a non-negative integer `n`. -/
def pyStrNat (n : Nat) : String :=
  ⟨natDigits n⟩

/-- Accumulating decimal parser: consumes characters, failing on the first
non-digit, as the digit-run core of Python `int(...)`. -/
def parseDigitsAux : List Char → Nat → Option Nat
  | [], acc => some acc
  | c :: cs, acc =>
    if c.isDigit then parseDigitsAux cs (acc * 10 + (c.toNat - 48)) else none

/-- Model of Python `int(s)` for ASCII-decimal strings: an optional single
sign character followed by a non-empty run of decimal digits; anything else
raises `ValueError`, modelled as `none`. -/
def pyInt? (s : String) : Option Int :=
  match s.data with
  | [] => none
  | c :: cs =>
    if c = '-' then (parseDigitsAux cs 0).map (fun n => -(n : Int))
    else if c = '+' then
      match cs with
      | [] => none
      | _ => (parseDigitsAux cs 0).map (fun n => (n : Int))
    else (parseDigitsAux (c :: cs) 0).map (fun n => (n : Int))

/-! ### `auth/internal.py` -/

/-- Token validity window in seconds (5 minutes), `TOKEN_VALIDITY_SECONDS`. -/
def TOKEN_VALIDITY_SECONDS : Nat := 5 * 60

/-- Message of the `AuthConfigurationError` raised by `require_secret`. -/
def authConfigurationErrorMsg : String :=
  "MODAL_API_SECRET environment variable is not configured"

/-- Embedding of `require_secret()`.  The process environment is the single
relevant entry `os.environ.get("MODAL_API_SECRET")`, an `Option String`;
`if not secret` is true for both `None` and the empty string.  The raised
`AuthConfigurationError` is the `Except.error` branch. -/
def require_secret (envSecret : Option String) : Except String String :=
  match envSecret with
  | none => .error authConfigurationErrorMsg
  | some secret =>
    if secret = "" then .error authConfigurationErrorMsg
    else .ok secret

/-- Embedding of `generate_internal_token(secret)` with an explicit secret:
`timestamp.signature` where `timestamp` is the minting wall clock in integer
milliseconds and `signature` is the HMAC hex digest of the timestamp string. -/
def generate_internal_token (hmac : String → String → String)
    (now_ms : Nat) (secret : String) : String :=
  let timestamp_str := pyStrNat now_ms
  let signature := hmac secret timestamp_str
  timestamp_str ++ "." ++ signature

/-- Embedding of `verify_internal_token(auth_header, secret)` with an explicit
secret.  `now_ms` is the verifier's clock `time.time()` in milliseconds; the
window test `abs(now - token_time) > TOKEN_VALIDITY_SECONDS` (seconds) is the
integer test `|now_ms - token_time_ms| > 1000 * TOKEN_VALIDITY_SECONDS`.
`hmac.compare_digest` is (constant-time) string equality. -/
def verify_internal_token (hmac : String → String → String) (now_ms : Int)
    (auth_header : Option String) (secret : String) : Bool :=
  match auth_header with
  | none => false
  | some h =>
    if h = "" then false
    else if ¬ pyStartsWith h "Bearer " then false
    else
      let token := pyDrop h 7
      match pySplitDot token with
      | [timestamp_str, signature] =>
        match pyInt? timestamp_str with
        | none => false
        | some token_time_ms =>
          if 1000 * (TOKEN_VALIDITY_SECONDS : Int) < |now_ms - token_time_ms| then
            false
          else
            signature = hmac secret timestamp_str
      | _ => false

/-- Embedding of `verify_internal_token` with the optional `secret` argument:
when no secret is passed, `require_secret()` runs first and its
`AuthConfigurationError` propagates (the `Except.error` branch), before the
header is examined at all. -/
def verify_internal_token_opt (hmac : String → String → String)
    (envSecret : Option String) (now_ms : Int)
    (auth_header : Option String) (secret? : Option String) :
    Except String Bool :=
  match secret? with
  | none =>
    match require_secret envSecret with
    | .error e => .error e
    | .ok secret => .ok (verify_internal_token hmac now_ms auth_header secret)
  | some secret => .ok (verify_internal_token hmac now_ms auth_header secret)

/-! ### `scheduler/image_builder.py` -/

/-- Retry config for callbacks: `CALLBACK_MAX_RETRIES`. -/
def CALLBACK_MAX_RETRIES : Nat := 3

/-- Retry config for callbacks: `CALLBACK_BACKOFF_BASE` (seconds: 2, 4, 8). -/
def CALLBACK_BACKOFF_BASE : Nat := 2

/-- One HTTP POST issued by `_callback_with_retry`: the target URL, the JSON
payload (an abstract type parameter), and the `Authorization` header. -/
structure PostRequest (α : Type) where
  url : String
  payload : α
  authHeader : String
deriving DecidableEq

/-- Observable trace of one `_callback_with_retry` call: the POSTs issued in
order, the `asyncio.sleep` delays performed in order (seconds), and the
returned success boolean.  The function catches every exception, so the
trace is total: no exception propagates. -/
structure RetryTrace (α : Type) where
  posts : List (PostRequest α)
  delays : List Nat
  success : Bool
deriving DecidableEq

/-- Loop body of `_callback_with_retry`: `attempt` is the Python loop index,
`fuel` the number of loop iterations left (`CALLBACK_MAX_RETRIES - attempt`).
Each iteration mints a fresh token at that attempt's clock `nowAt attempt`,
POSTs, and on failure (`outcome attempt = false`, covering HTTP non-2xx and
every exception) sleeps `CALLBACK_BACKOFF_BASE ^ (attempt + 1)` seconds
unless this was the final attempt. -/
def callbackGo {α : Type} (hmac : String → String → String) (url : String)
    (payload : α) (secret : String) (nowAt : Nat → Nat) (outcome : Nat → Bool) :
    Nat → Nat → RetryTrace α
  | _, 0 => ⟨[], [], false⟩
  | attempt, fuel + 1 =>
    let token := generate_internal_token hmac (nowAt attempt) secret
    let req : PostRequest α := ⟨url, payload, "Bearer " ++ token⟩
    if outcome attempt then
      ⟨[req], [], true⟩
    else
      let rest := callbackGo hmac url payload secret nowAt outcome (attempt + 1) fuel
      if attempt < CALLBACK_MAX_RETRIES - 1 then
        ⟨req :: rest.posts, CALLBACK_BACKOFF_BASE ^ (attempt + 1) :: rest.delays,
          rest.success⟩
      else
        ⟨req :: rest.posts, rest.delays, rest.success⟩

/-- Embedding of `_callback_with_retry(url, payload, secret)`: run the loop
`for attempt in range(CALLBACK_MAX_RETRIES)` and return the observable
trace. -/
def _callback_with_retry {α : Type} (hmac : String → String → String)
    (url : String) (payload : α) (secret : String) (nowAt : Nat → Nat)
    (outcome : Nat → Bool) : RetryTrace α :=
  callbackGo hmac url payload secret nowAt outcome 0 CALLBACK_MAX_RETRIES

/-- One build-status record returned by the control plane's
`/repo-images/status` endpoint: a JSON dict whose relevant keys may each be
absent (`img.get(...)`). -/
structure ImageRecord where
  repo_owner : Option String
  repo_name : Option String
  status : Option String
  base_sha : Option String
deriving DecidableEq

/-- Embedding of `_should_rebuild(repo_owner, repo_name, remote_sha,
all_images)`.  `dict.get(key, "")` is `Option.getD _ ""`; `dict.get(key)`
is the `Option` itself; `str.lower()` is `String.toLower` (the records and
arguments are ASCII repository slugs). -/
def _should_rebuild (repo_owner repo_name remote_sha : String)
    (all_images : List ImageRecord) : Bool :=
  let owner_lower := repo_owner.toLower
  let name_lower := repo_name.toLower
  let repo_images := all_images.filter fun img =>
    ((img.repo_owner.getD "").toLower == owner_lower)
      && ((img.repo_name.getD "").toLower == name_lower)
  let building := repo_images.filter fun img => img.status == some "building"
  if ¬ building.isEmpty then false
  else
    let ready := repo_images.filter fun img => img.status == some "ready"
    match ready with
    | [] => true
    | latest_ready :: _ => latest_ready.base_sha != some remote_sha

/-- Case-insensitive repo matching, as the spec's decision table words it:
owner and name compare equal after lowering. -/
def matchesRepoCI (owner name : String) (img : ImageRecord) : Bool :=
  ((img.repo_owner.getD "").toLower == owner.toLower)
    && ((img.repo_name.getD "").toLower == name.toLower)

/-- Decision table of spec §4.5.2 step 6, written from the spec's words: if
any record for this repo has `status=building` → no; else if no record for
this repo has `status=ready` → yes; else yes iff the newest ready record's
`base_sha` (the first in list order, records pre-sorted by creation time
descending) differs from `remote_sha`. -/
def shouldRebuildSpec (owner name remote_sha : String)
    (records : List ImageRecord) : Bool :=
  let mine := records.filter (matchesRepoCI owner name)
  if mine.any fun img => img.status == some "building" then false
  else
    match mine.find? fun img => img.status == some "ready" with
    | none => true
    | some newestReady => newestReady.base_sha != some remote_sha

/-- JSON payload of a build callback, keyed as in the source: the success
payload `{build_id, provider_image_id, base_sha, build_duration_seconds}` or
the failure payload `{build_id, error}`.  Durations are abstracted to the
value the worker computed (`round(time.time() - start_time, 2)`), carried
through unchanged as a natural number of the world's choosing. -/
inductive BuildPayload
  | success (build_id provider_image_id base_sha : String)
      (build_duration_seconds : Nat)
  | failure (build_id error : String)
deriving DecidableEq

/-- External world of one `build_repo_image` run: results of the imported
allow-list check `validate_control_plane_url`, of the Modal sandbox calls,
and the elapsed build duration.  `Except.error e` models a raised exception
whose `str(e)` is `e`. -/
structure BuildWorld where
  validate : String → Bool
  createResult : Except String Unit
  returncode : Int
  shaExec : Except String String
  snapshotResult : Except String String
  duration : Nat

/-- Observable trace of one `build_repo_image` run: which build steps were
reached, and the `_callback_with_retry` invocations (target URL and payload)
issued, in order. -/
structure BuildTrace where
  createAttempted : Bool
  waited : Bool
  shaRead : Bool
  snapshotAttempted : Bool
  callbacks : List (String × BuildPayload)
deriving DecidableEq

/-- Embedding of `_read_sandbox_head_sha(sandbox, repo_name)`: the trimmed
stdout of `git rev-parse HEAD`, or the empty string when the exec raised. -/
def _read_sandbox_head_sha (shaExec : Except String String) : String :=
  match shaExec with
  | .ok stdout => pyStrip stdout
  | .error _ => ""

/-- Failure-path callback of `build_repo_image`: when `callback_url` is
non-empty, one `_callback_with_retry` to
`{callback_url.rsplit("/", 1)[0]}/build-failed` with `{build_id, error}`;
when it is empty, no callback. -/
def failureCallbacks (callback_url build_id err : String) :
    List (String × BuildPayload) :=
  if callback_url ≠ "" then
    [(pyRsplitSlashParent callback_url ++ "/build-failed",
      .failure build_id err)]
  else []

/-- Embedding of `build_repo_image(repo_owner, repo_name, default_branch,
callback_url, build_id)` over a `BuildWorld`, returning the observable
trace.  The SSRF guard runs first; the `try` block then creates the build
sandbox, waits for exit (non-zero exit raises `BuildError` with message
`"Build sandbox exited with code {exit_code}"`), reads the HEAD SHA,
snapshots, and issues the success callback; the `except` block issues the
failure callback. -/
def build_repo_image (w : BuildWorld)
    (repo_owner repo_name default_branch callback_url build_id : String) :
    BuildTrace :=
  if callback_url ≠ "" ∧ w.validate callback_url = false then
    ⟨false, false, false, false, []⟩
  else
    match w.createResult with
    | .error e =>
      ⟨true, false, false, false, failureCallbacks callback_url build_id e⟩
    | .ok _ =>
      if w.returncode ≠ 0 then
        ⟨true, true, false, false,
          failureCallbacks callback_url build_id
            ("Build sandbox exited with code " ++ toString w.returncode)⟩
      else
        let base_sha := _read_sandbox_head_sha w.shaExec
        match w.snapshotResult with
        | .error e =>
          ⟨true, true, true, true, failureCallbacks callback_url build_id e⟩
        | .ok provider_image_id =>
          ⟨true, true, true, true,
            if callback_url ≠ "" then
              [(callback_url,
                .success build_id provider_image_id base_sha w.duration)]
            else []⟩

/-- Malformed-header predicate: the deviation classes of the claimed
verification totality (missing or empty header, wrong `Bearer ` prefix, not
exactly one `.` in the token, non-integer timestamp). -/
def malformedAuthHeader (h : Option String) : Bool :=
  match h with
  | none => true
  | some s =>
    if s = "" then true
    else if ¬ pyStartsWith s "Bearer " then true
    else
      match pySplitDot (pyDrop s 7) with
      | [timestamp_str, _] => (pyInt? timestamp_str).isNone
      | _ => true

/-- Concrete stand-in for the HMAC-SHA256 hex-digest primitive, used to
instantiate witnesses: any function of secret and message will do. -/
def hmacModel (secret message : String) : String :=
  secret ++ ":" ++ message

/-! ### Decimal printing and parsing lemmas -/

/-- Fuel irrelevance for `natDigitsAux`: any fuel above the input agrees. -/
theorem natDigitsAux_congr : ∀ f g n : Nat, n < f → n < g →
    natDigitsAux f n = natDigitsAux g n := by
  intro f
  induction f with
  | zero => intro g n h _; omega
  | succ f ih =>
    intro g n hf hg
    cases g with
    | zero => omega
    | succ g =>
      simp only [natDigitsAux]
      by_cases h : n < 10
      · simp [h]
      · simp only [if_neg h]
        have hdiv : n / 10 < n := Nat.div_lt_self (by omega) (by omega)
        rw [ih g (n / 10) (by omega) (by omega)]

/-- Unfolding equation for `natDigits`. -/
theorem natDigits_eq (n : Nat) :
    natDigits n = if n < 10 then [Char.ofNat (48 + n)]
      else natDigits (n / 10) ++ [Char.ofNat (48 + n % 10)] := by
  by_cases h : n < 10
  · simp only [natDigits, natDigitsAux, if_pos h]
  · rw [if_neg h]
    have hstep : natDigitsAux (n + 1) n
        = if n < 10 then [Char.ofNat (48 + n)]
          else natDigitsAux n (n / 10) ++ [Char.ofNat (48 + n % 10)] := rfl
    show natDigitsAux (n + 1) n = _
    rw [hstep, if_neg h]
    have hdiv : n / 10 < n := Nat.div_lt_self (by omega) (by omega)
    rw [natDigitsAux_congr n (n / 10 + 1) (n / 10) (by omega) (by omega)]
    rfl

/-- Every character printed by `natDigits` is an ASCII decimal digit. -/
theorem isDigit_natDigits : ∀ n : Nat, ∀ c ∈ natDigits n, c.isDigit = true := by
  intro n
  induction n using Nat.strong_induction_on with
  | _ n ih =>
    intro c hc
    rw [natDigits_eq] at hc
    by_cases h : n < 10
    · rw [if_pos h, List.mem_singleton] at hc
      subst hc
      interval_cases n <;> decide
    · rw [if_neg h, List.mem_append] at hc
      rcases hc with hc | hc
      · exact ih (n / 10) (Nat.div_lt_self (by omega) (by omega)) c hc
      · rw [List.mem_singleton] at hc
        subst hc
        have h10 : n % 10 < 10 := Nat.mod_lt _ (by omega)
        generalize n % 10 = m at h10 ⊢
        interval_cases m <;> decide

/-- Printed digit lists are never empty. -/
theorem natDigits_ne_nil (n : Nat) : natDigits n ≠ [] := by
  rw [natDigits_eq]
  by_cases h : n < 10
  · simp [h]
  · simp [h]

/-- Consuming the printed digits of `n` multiplies the accumulator by the
corresponding power of ten and adds `n`. -/
theorem parseDigitsAux_natDigits (n : Nat) : ∀ (rest : List Char) (acc : Nat),
    parseDigitsAux (natDigits n ++ rest) acc
      = parseDigitsAux rest (acc * 10 ^ (natDigits n).length + n) := by
  induction n using Nat.strong_induction_on with
  | _ n ih =>
    intro rest acc
    rw [natDigits_eq n]
    by_cases h : n < 10
    · rw [if_pos h]
      have hd : (Char.ofNat (48 + n)).isDigit = true := by
        interval_cases n <;> decide
      have ht : (Char.ofNat (48 + n)).toNat = 48 + n := by
        interval_cases n <;> decide
      simp only [List.singleton_append, parseDigitsAux, hd, if_pos, ht,
        List.length_singleton]
      congr 1
      rw [pow_one]
      omega
    · rw [if_neg h, List.append_assoc]
      rw [ih (n / 10) (Nat.div_lt_self (by omega) (by omega))]
      have h10 : n % 10 < 10 := Nat.mod_lt _ (by omega)
      have hd : (Char.ofNat (48 + n % 10)).isDigit = true := by
        generalize n % 10 = m at h10 ⊢
        interval_cases m <;> decide
      have ht : (Char.ofNat (48 + n % 10)).toNat = 48 + n % 10 := by
        generalize n % 10 = m at h10 ⊢
        interval_cases m <;> decide
      simp only [List.singleton_append, parseDigitsAux, hd, if_pos, ht,
        List.length_append, List.length_singleton]
      congr 1
      have h48 : 48 + n % 10 - 48 = n % 10 := by omega
      rw [h48, pow_succ]
      have hr : acc * (10 ^ (natDigits (n / 10)).length * 10)
          = acc * 10 ^ (natDigits (n / 10)).length * 10 := by ring
      rw [hr]
      generalize acc * 10 ^ (natDigits (n / 10)).length = A
      omega

/-- Python `int(str(n)) = n` for the embedded printer and parser. -/
theorem pyInt?_pyStrNat (n : Nat) : pyInt? (pyStrNat n) = some (n : Int) := by
  obtain ⟨c, cs, hcc⟩ : ∃ c cs, natDigits n = c :: cs := by
    cases h : natDigits n with
    | nil => exact absurd h (natDigits_ne_nil n)
    | cons c cs => exact ⟨c, cs, rfl⟩
  have hcd : c.isDigit = true :=
    isDigit_natDigits n c (by rw [hcc]; exact List.mem_cons_self _ _)
  have hminus : c ≠ '-' := by
    intro h
    rw [h] at hcd
    exact absurd hcd (by decide)
  have hplus : c ≠ '+' := by
    intro h
    rw [h] at hcd
    exact absurd hcd (by decide)
  have hdata : (pyStrNat n).data = c :: cs := by
    rw [show (pyStrNat n).data = natDigits n from rfl, hcc]
  unfold pyInt?
  rw [hdata]
  simp only [if_neg hminus, if_neg hplus]
  rw [← hcc, ← List.append_nil (natDigits n), parseDigitsAux_natDigits]
  simp [parseDigitsAux]

/-! ### Split lemmas -/

/-- Splitting never yields an empty group list. -/
theorem splitChars_ne_nil (sep : Char) : ∀ cs, splitChars sep cs ≠ [] := by
  intro cs
  induction cs with
  | nil => simp [splitChars]
  | cons c cs ih =>
    simp only [splitChars]
    by_cases h : c = sep
    · simp [h]
    · simp only [if_neg h]
      cases hs : splitChars sep cs with
      | nil => simp
      | cons g gs => simp

/-- Splitting a separator-free run followed by a separator peels the run. -/
theorem splitChars_append_sep (sep : Char) (a b : List Char)
    (ha : ∀ c ∈ a, c ≠ sep) :
    splitChars sep (a ++ sep :: b) = a :: splitChars sep b := by
  induction a with
  | nil => simp [splitChars]
  | cons c a ih =>
    have hc : c ≠ sep := ha c (List.mem_cons_self _ _)
    simp only [List.cons_append, splitChars, if_neg hc, List.append_eq]
    rw [ih (fun x hx => ha x (List.mem_cons_of_mem _ hx))]

/-- Splitting a separator-free list yields the single group. -/
theorem splitChars_no_sep (sep : Char) (b : List Char)
    (hb : ∀ c ∈ b, c ≠ sep) :
    splitChars sep b = [b] := by
  induction b with
  | nil => rfl
  | cons c b ih =>
    have hc : c ≠ sep := hb c (List.mem_cons_self _ _)
    simp only [splitChars, if_neg hc]
    rw [ih (fun x hx => hb x (List.mem_cons_of_mem _ hx))]

/-! ### Verification lemmas -/

/-- ASCII digits are not the dot separator. -/
theorem isDigit_ne_dot {c : Char} (h : c.isDigit = true) : c ≠ '.' := by
  intro hc
  rw [hc] at h
  exact absurd h (by decide)

/-- Verification of a header of the shape `Bearer <rest>` passes the prefix
checks and reduces to the token checks on `rest`. -/
theorem verify_bearer (hmac : String → String → String) (now_ms : Int)
    (rest : String) (secret : String) :
    verify_internal_token hmac now_ms (some ("Bearer " ++ rest)) secret
      = (match pySplitDot rest with
         | [timestamp_str, signature] =>
           match pyInt? timestamp_str with
           | none => false
           | some token_time_ms =>
             if 1000 * (TOKEN_VALIDITY_SECONDS : Int) < |now_ms - token_time_ms| then
               false
             else
               signature = hmac secret timestamp_str
         | _ => false) := by
  have hne : ("Bearer " ++ rest) ≠ "" := by
    rw [Ne, String.ext_iff, String.data_append]
    simp
  have hpre : pyStartsWith ("Bearer " ++ rest) "Bearer " = true := by
    unfold pyStartsWith
    rw [ List.isPrefixOf_iff_prefix, String.data_append]
    exact List.prefix_append _ _
  have hdrop : pyDrop ("Bearer " ++ rest) 7 = rest := by
    unfold pyDrop
    rw [String.data_append]
    rw [show (7 : Nat) = "Bearer ".data.length from rfl, List.drop_left]
  simp [verify_internal_token, hpre, hdrop, hne]

/-- Character data of a freshly minted token: the printed timestamp, a dot,
then the signature characters. -/
theorem mint_data (hmac : String → String → String) (secret : String)
    (t0 : Nat) :
    (generate_internal_token hmac t0 secret).data
      = natDigits t0 ++ '.' :: (hmac secret (pyStrNat t0)).data := by
  show (pyStrNat t0 ++ "." ++ hmac secret (pyStrNat t0)).data = _
  rw [String.data_append, String.data_append]
  rw [show (pyStrNat t0).data = natDigits t0 from rfl]
  simp

/-- Splitting a freshly minted token on `.` yields exactly the timestamp
string and the signature, provided the signature is dot-free. -/
theorem pySplitDot_mint (hmac : String → String → String) (secret : String)
    (t0 : Nat)
    (hdot : ∀ c ∈ (hmac secret (pyStrNat t0)).data, c ≠ '.') :
    pySplitDot (generate_internal_token hmac t0 secret)
      = [pyStrNat t0, hmac secret (pyStrNat t0)] := by
  unfold pySplitDot
  rw [mint_data]
  rw [splitChars_append_sep '.' _ _
    (fun c hc => isDigit_ne_dot (isDigit_natDigits t0 c hc))]
  rw [splitChars_no_sep '.' _ hdot]
  show [String.mk (natDigits t0), String.mk (hmac secret (pyStrNat t0)).data] = _
  rw [show String.mk (natDigits t0) = pyStrNat t0 from rfl]

/-- Master characterisation: verifying a header built from a freshly minted
token (dot-free signature) is the conjunction of the validity-window test
and the signature comparison against the verifier's secret. -/
theorem verify_mint_eq (hmac : String → String → String)
    (mintSecret verSecret : String) (t0 : Nat) (t : Int)
    (hdot : ∀ c ∈ (hmac mintSecret (pyStrNat t0)).data, c ≠ '.') :
    verify_internal_token hmac t
        (some ("Bearer " ++ generate_internal_token hmac t0 mintSecret)) verSecret
      = (decide (|t - (t0 : Int)| ≤ 1000 * (TOKEN_VALIDITY_SECONDS : Int))
          && decide (hmac mintSecret (pyStrNat t0) = hmac verSecret (pyStrNat t0))) := by
  rw [verify_bearer, pySplitDot_mint hmac mintSecret t0 hdot]
  simp only [pyInt?_pyStrNat]
  by_cases hw : 1000 * (TOKEN_VALIDITY_SECONDS : Int) < |t - (t0 : Int)|
  · rw [if_pos hw]
    rw [decide_eq_false (not_le.mpr hw)]
    simp
  · rw [if_neg hw]
    rw [decide_eq_true (not_lt.mp hw)]
    simp

/-- A minted token outside the validity window fails verification, with no
assumption on the signature characters. -/
theorem verify_mint_expired (hmac : String → String → String)
    (mintSecret verSecret : String) (t0 : Nat) (t : Int)
    (hfar : 1000 * (TOKEN_VALIDITY_SECONDS : Int) < |t - (t0 : Int)|) :
    verify_internal_token hmac t
        (some ("Bearer " ++ generate_internal_token hmac t0 mintSecret)) verSecret
      = false := by
  rw [verify_bearer]
  unfold pySplitDot
  rw [mint_data]
  rw [splitChars_append_sep '.' _ _
    (fun c hc => isDigit_ne_dot (isDigit_natDigits t0 c hc))]
  cases hs : splitChars '.' (hmac mintSecret (pyStrNat t0)).data with
  | nil => exact absurd hs (splitChars_ne_nil _ _)
  | cons g gs =>
    cases gs with
    | nil =>
      simp only [List.map]
      rw [show String.mk (natDigits t0) = pyStrNat t0 from rfl]
      simp only [pyInt?_pyStrNat]
      rw [if_pos hfar]
    | cons g2 gs2 => simp

/-! ### Claim theorems: auth -/

/-- C1 (auth round-trip): for every secret `s`, a header carrying a token
minted for `s` verifies as true at the minting time; for distinct secrets
`s ≠ s'` (whose HMAC digests of the minted timestamp differ, the defining
property of the keyed digest) verification under `s'` is false; and any
token whose minting timestamp lies more than 300 seconds before the
verifier's clock fails verification.  The digest is dot-free, as a hex
digest is. -/
theorem auth_round_trip (hmac : String → String → String) (s s' : String)
    (t0 : Nat)
    (hdot : ∀ c ∈ (hmac s (pyStrNat t0)).data, c ≠ '.')
    (hne : s ≠ s')
    (hsig : hmac s' (pyStrNat t0) ≠ hmac s (pyStrNat t0)) :
    verify_internal_token hmac (t0 : Int)
        (some ("Bearer " ++ generate_internal_token hmac t0 s)) s = true
    ∧ verify_internal_token hmac (t0 : Int)
        (some ("Bearer " ++ generate_internal_token hmac t0 s)) s' = false
    ∧ ∀ t : Int, (t0 : Int) + 1000 * (TOKEN_VALIDITY_SECONDS : Int) < t →
        verify_internal_token hmac t
          (some ("Bearer " ++ generate_internal_token hmac t0 s)) s = false := by
  refine ⟨?_, ?_, ?_⟩
  · rw [verify_mint_eq hmac s s t0 _ hdot]
    simp
  · rw [verify_mint_eq hmac s s' t0 _ hdot]
    rw [decide_eq_false (Ne.symm hsig)]
    simp
  · intro t ht
    apply verify_mint_expired
    have h1 : 1000 * (TOKEN_VALIDITY_SECONDS : Int) < t - (t0 : Int) := by omega
    exact lt_of_lt_of_le h1 (le_abs_self _)

/-- Witness for `auth_round_trip` at a concrete HMAC model, secrets and
times. -/
theorem auth_round_trip_witness :
    verify_internal_token hmacModel 1000
        (some ("Bearer " ++ generate_internal_token hmacModel 1000 "alpha"))
        "alpha" = true
    ∧ verify_internal_token hmacModel 1000
        (some ("Bearer " ++ generate_internal_token hmacModel 1000 "alpha"))
        "beta" = false
    ∧ verify_internal_token hmacModel 400000
        (some ("Bearer " ++ generate_internal_token hmacModel 1000 "alpha"))
        "alpha" = false := by
  obtain ⟨h1, h2, h3⟩ :=
    auth_round_trip hmacModel "alpha" "beta" 1000 (by decide) (by decide)
      (by decide)
  exact ⟨h1, h2, h3 400000 (by decide)⟩

/-- C2 (token validity window): a well-formed token minted at `t0` is
accepted exactly when the verifier clock `t` satisfies `|t - t0| ≤ 300` s
(here in milliseconds); in particular it verifies as true at `t0 + 299` s
and as false at `t0 + 301` s. -/
theorem token_validity_window (hmac : String → String → String)
    (secret : String) (t0 : Nat) (t : Int)
    (hdot : ∀ c ∈ (hmac secret (pyStrNat t0)).data, c ≠ '.') :
    (verify_internal_token hmac t
        (some ("Bearer " ++ generate_internal_token hmac t0 secret)) secret = true
      ↔ |t - (t0 : Int)| ≤ 300000)
    ∧ verify_internal_token hmac ((t0 : Int) + 299000)
        (some ("Bearer " ++ generate_internal_token hmac t0 secret)) secret = true
    ∧ verify_internal_token hmac ((t0 : Int) + 301000)
        (some ("Bearer " ++ generate_internal_token hmac t0 secret)) secret = false := by
  have key : ∀ u : Int,
      verify_internal_token hmac u
          (some ("Bearer " ++ generate_internal_token hmac t0 secret)) secret
        = decide (|u - (t0 : Int)| ≤ 300000) := by
    intro u
    rw [verify_mint_eq hmac secret secret t0 u hdot]
    norm_num [TOKEN_VALIDITY_SECONDS]
  refine ⟨?_, ?_, ?_⟩
  · rw [key t]
    simp
  · rw [key ((t0 : Int) + 299000)]
    have : (t0 : Int) + 299000 - (t0 : Int) = 299000 := by ring
    rw [this]
    decide
  · rw [key ((t0 : Int) + 301000)]
    have : (t0 : Int) + 301000 - (t0 : Int) = 301000 := by ring
    rw [this]
    decide

/-- Witness for `token_validity_window` at a concrete HMAC model, secret and
times. -/
theorem token_validity_window_witness :
    (verify_internal_token hmacModel 250000
        (some ("Bearer " ++ generate_internal_token hmacModel 1000 "k")) "k" = true
      ↔ |(250000 : Int) - (1000 : Int)| ≤ 300000)
    ∧ verify_internal_token hmacModel ((1000 : Int) + 299000)
        (some ("Bearer " ++ generate_internal_token hmacModel 1000 "k")) "k" = true
    ∧ verify_internal_token hmacModel ((1000 : Int) + 301000)
        (some ("Bearer " ++ generate_internal_token hmacModel 1000 "k")) "k" = false := by
  obtain ⟨h1, h2, h3⟩ := token_validity_window hmacModel "k" 1000 250000 (by decide)
  exact ⟨h1, h2, h3⟩

/-- C5 (verification totality on malformed input): every header in the
deviation classes — missing or empty header, wrong or differently-cased or
space-less `Bearer ` prefix, token without exactly one dot, non-integer
timestamp — verifies as false under any explicitly supplied secret; the
embedding is a total function, so no exception propagates. -/
theorem verify_malformed_header_false (hmac : String → String → String)
    (h : Option String) (secret : String) (t : Int)
    (hm : malformedAuthHeader h = true) :
    verify_internal_token hmac t h secret = false := by
  cases h with
  | none => rfl
  | some s =>
    have hm' : (if s = "" then true
        else if ¬ pyStartsWith s "Bearer " = true then true
        else
          match pySplitDot (pyDrop s 7) with
          | [timestamp_str, _] => (pyInt? timestamp_str).isNone
          | _ => true) = true := hm
    show (if s = "" then false
        else if ¬ pyStartsWith s "Bearer " = true then false
        else
          match pySplitDot (pyDrop s 7) with
          | [timestamp_str, signature] =>
            match pyInt? timestamp_str with
            | none => false
            | some token_time_ms =>
              if 1000 * (TOKEN_VALIDITY_SECONDS : Int) < |t - token_time_ms| then
                false
              else
                decide (signature = hmac secret timestamp_str)
          | _ => false) = false
    clear hm
    rename' hm' => hm
    by_cases he : s = ""
    · simp [he]
    · rw [if_neg he] at hm
      rw [if_neg he]
      by_cases hp : pyStartsWith s "Bearer " = true
      · rw [if_neg (by simp [hp])] at hm
        rw [if_neg (by simp [hp])]
        cases hsp : pySplitDot (pyDrop s 7) with
        | nil => simp [hsp]
        | cons a l2 =>
          cases l2 with
          | nil => simp [hsp]
          | cons b l3 =>
            cases l3 with
            | nil =>
              rw [hsp] at hm
              simp only [hsp]
              rw [show (match [a, b] with
                  | [timestamp_str, _] => (pyInt? timestamp_str).isNone
                  | _ => true) = (pyInt? a).isNone from rfl] at hm
              cases hi : pyInt? a with
              | none => simp [hi]
              | some v =>
                rw [hi] at hm
                simp at hm
            | cons c l4 => simp [hsp]
      · rw [if_pos (by simp [hp])] at hm
        rw [if_pos (by simp [hp])]

/-- Witness for `verify_malformed_header_false`: a header with a
non-integer timestamp. -/
theorem verify_malformed_header_false_witness :
    verify_internal_token hmacModel 0 (some "Bearer oops.sig") "k" = false :=
  verify_malformed_header_false hmacModel (some "Bearer oops.sig") "k" 0
    (by decide)

/-- C8 counterexample: with `MODAL_API_SECRET` set to the empty string the
variable is set, yet `require_secret` raises `AuthConfigurationError`
instead of returning the configured value. -/
theorem require_secret_set_empty_fails :
    require_secret (some "") = .error authConfigurationErrorMsg
    ∧ require_secret (some "") ≠ .ok "" := by
  refine ⟨rfl, ?_⟩
  intro h
  simp [require_secret] at h

/-- C8 amended: `require_secret` returns the configured secret when
`MODAL_API_SECRET` is set to a non-empty value, and fails with
`AuthConfigurationError` when it is absent or set to the empty string. -/
theorem require_secret_amended (env : Option String) :
    (∀ s, env = some s → s ≠ "" → require_secret env = .ok s)
    ∧ ((env = none ∨ env = some "") →
        require_secret env = .error authConfigurationErrorMsg) := by
  constructor
  · rintro s rfl hs
    simp [require_secret, hs]
  · rintro (rfl | rfl) <;> rfl

/-- Witness for `require_secret_amended` at concrete environments. -/
theorem require_secret_amended_witness :
    require_secret (some "sek") = .ok "sek"
    ∧ require_secret none = .error authConfigurationErrorMsg :=
  ⟨(require_secret_amended (some "sek")).1 "sek" rfl (by decide),
   (require_secret_amended none).2 (Or.inl rfl)⟩

/-- C9 (implicit): calling `verify_internal_token` without an explicit
secret raises `AuthConfigurationError` whenever `MODAL_API_SECRET` is unset
or empty, for every header — well-formed or not — since `require_secret`
runs before the header is examined. -/
theorem verify_unconfigured_raises (hmac : String → String → String)
    (env : Option String) (t : Int) (h : Option String)
    (henv : env = none ∨ env = some "") :
    verify_internal_token_opt hmac env t h none
      = .error authConfigurationErrorMsg := by
  rcases henv with rfl | rfl <;> rfl

/-- Witness for `verify_unconfigured_raises`: even a freshly minted,
well-formed header is never examined. -/
theorem verify_unconfigured_raises_witness :
    verify_internal_token_opt hmacModel none 0
        (some ("Bearer " ++ generate_internal_token hmacModel 0 "k")) none
      = .error authConfigurationErrorMsg :=
  verify_unconfigured_raises hmacModel none 0
    (some ("Bearer " ++ generate_internal_token hmacModel 0 "k")) (Or.inl rfl)

/-! ### Claim theorems: reconciler decision -/

/-- Head of a filtered list is the first element satisfying the predicate. -/
theorem head?_filter_eq_find? {α : Type} (p : α → Bool) (l : List α) :
    (l.filter p).head? = l.find? p := by
  induction l with
  | nil => rfl
  | cons a l ih =>
    by_cases h : p a
    · simp [List.filter_cons, List.find?_cons, h]
    · simp [List.filter_cons, List.find?_cons, h, ih]

/-- Core of the decision-table equivalence, over the already-filtered record
list: the source's emptiness tests and `ready[0]` agree with the spec's
`any`-test and first-ready lookup. -/
theorem rebuild_core_eq (remote_sha : String) (l : List ImageRecord) :
    (if ¬ (l.filter fun img => img.status == some "building").isEmpty then false
     else
       match l.filter fun img => img.status == some "ready" with
       | [] => true
       | latest :: _ => latest.base_sha != some remote_sha)
    = (if l.any fun img => img.status == some "building" then false
       else
         match l.find? fun img => img.status == some "ready" with
         | none => true
         | some r => r.base_sha != some remote_sha) := by
  by_cases hb : (l.filter fun img => img.status == some "building").isEmpty = true
  · have hnil : l.filter (fun img => img.status == some "building") = [] := by
      cases hfe : l.filter fun img => img.status == some "building" with
      | nil => rfl
      | cons a t =>
        rw [hfe] at hb
        exact absurd hb (by simp)
    have hany : (l.any fun img => img.status == some "building") = false := by
      rw [List.any_eq_false]
      exact List.filter_eq_nil_iff.mp hnil
    rw [if_neg (by simp [hb]), if_neg (by simp [hany])]
    cases hf : l.filter fun img => img.status == some "ready" with
    | nil =>
      have hfind : l.find? (fun img => img.status == some "ready") = none := by
        rw [← head?_filter_eq_find?, hf]
        rfl
      simp [hfind]
    | cons r rest =>
      have hfind : l.find? (fun img => img.status == some "ready") = some r := by
        rw [← head?_filter_eq_find?, hf]
        rfl
      simp [hfind]
  · have hany : (l.any fun img => img.status == some "building") = true := by
      rw [List.any_eq_true]
      obtain ⟨x, hx⟩ :
          ∃ x, x ∈ l.filter fun img => img.status == some "building" := by
        cases hfe : l.filter fun img => img.status == some "building" with
        | nil =>
          rw [hfe] at hb
          exact absurd rfl hb
        | cons a t => exact ⟨a, by simp [hfe]⟩
      have hm := List.mem_filter.mp hx
      exact ⟨x, hm.1, hm.2⟩
    rw [if_pos (by simp [hb]), if_pos (by simp [hany])]

/-- C3 (reconciler rebuild decision): `_should_rebuild` computes exactly the
spec's decision table — building in-flight forces no; no ready record means
yes; otherwise yes iff the newest ready record's `base_sha` differs from
`remote_sha`, with case-insensitive repo matching. -/
theorem should_rebuild_decision_table (repo_owner repo_name remote_sha : String)
    (all_images : List ImageRecord) :
    _should_rebuild repo_owner repo_name remote_sha all_images
      = shouldRebuildSpec repo_owner repo_name remote_sha all_images := by
  simp only [_should_rebuild, shouldRebuildSpec, matchesRepoCI]
  exact rebuild_core_eq remote_sha _

/-! ### Claim theorems: callback retry -/

/-- C4 (callback retry policy): `_callback_with_retry` makes at most 3 POST
attempts; every attempt `i` targets `url` with the given payload and a token
freshly minted at that attempt's clock `nowAt i`; the sleeps performed are
`2^(k+1)` seconds before retry `k+1` (2 s, then 4 s; the computed 8 s delay
after a third failure is never slept, as no fourth attempt exists); the
returned boolean is true iff some attempt succeeded; the trace is total, so
nothing is raised. -/
theorem callback_retry_policy {α : Type} (hmac : String → String → String)
    (url : String) (payload : α) (secret : String) (nowAt : Nat → Nat)
    (outcome : Nat → Bool) :
    (_callback_with_retry hmac url payload secret nowAt outcome).posts.length
        ≤ CALLBACK_MAX_RETRIES
    ∧ ((_callback_with_retry hmac url payload secret nowAt outcome).success = true
        ↔ ∃ i < (_callback_with_retry hmac url payload secret nowAt
            outcome).posts.length, outcome i = true)
    ∧ (_callback_with_retry hmac url payload secret nowAt outcome).posts
        = (List.range (_callback_with_retry hmac url payload secret nowAt
            outcome).posts.length).map
          (fun i => ⟨url, payload,
            "Bearer " ++ generate_internal_token hmac (nowAt i) secret⟩)
    ∧ (_callback_with_retry hmac url payload secret nowAt outcome).delays
        = (List.range ((_callback_with_retry hmac url payload secret nowAt
            outcome).posts.length - 1)).map
          (fun i => CALLBACK_BACKOFF_BASE ^ (i + 1)) := by
  set t := _callback_with_retry hmac url payload secret nowAt outcome with hdef
  have hunfold : t = callbackGo hmac url payload secret nowAt outcome 0 3 := hdef
  cases h0 : outcome 0 with
  | true =>
    have ht : t = ⟨[⟨url, payload,
        "Bearer " ++ generate_internal_token hmac (nowAt 0) secret⟩], [], true⟩ := by
      rw [hunfold]
      simp [callbackGo, h0]
    rw [ht]
    refine ⟨by simp [CALLBACK_MAX_RETRIES], ?_, by simp [List.range_succ], by simp⟩
    simp only [List.length_cons, List.length_nil]
    constructor
    · intro _
      exact ⟨0, by omega, h0⟩
    · intro _
      trivial
  | false =>
    cases h1 : outcome 1 with
    | true =>
      have ht : t = ⟨[⟨url, payload,
            "Bearer " ++ generate_internal_token hmac (nowAt 0) secret⟩,
          ⟨url, payload,
            "Bearer " ++ generate_internal_token hmac (nowAt 1) secret⟩],
          [CALLBACK_BACKOFF_BASE ^ 1], true⟩ := by
        rw [hunfold]
        simp [callbackGo, h0, h1, CALLBACK_MAX_RETRIES]
      rw [ht]
      refine ⟨by simp [CALLBACK_MAX_RETRIES], ?_,
        by simp [List.range_succ], by simp [List.range_succ]⟩
      simp only [List.length_cons, List.length_nil]
      constructor
      · intro _
        exact ⟨1, by omega, h1⟩
      · intro _
        trivial
    | false =>
      cases h2 : outcome 2 with
      | true =>
        have ht : t = ⟨[⟨url, payload,
              "Bearer " ++ generate_internal_token hmac (nowAt 0) secret⟩,
            ⟨url, payload,
              "Bearer " ++ generate_internal_token hmac (nowAt 1) secret⟩,
            ⟨url, payload,
              "Bearer " ++ generate_internal_token hmac (nowAt 2) secret⟩],
            [CALLBACK_BACKOFF_BASE ^ 1, CALLBACK_BACKOFF_BASE ^ 2], true⟩ := by
          rw [hunfold]
          simp [callbackGo, h0, h1, h2, CALLBACK_MAX_RETRIES]
        rw [ht]
        refine ⟨by simp [CALLBACK_MAX_RETRIES], ?_,
          by simp [List.range_succ], by simp [List.range_succ]⟩
        simp only [List.length_cons, List.length_nil]
        constructor
        · intro _
          exact ⟨2, by omega, h2⟩
        · intro _
          trivial
      | false =>
        have ht : t = ⟨[⟨url, payload,
              "Bearer " ++ generate_internal_token hmac (nowAt 0) secret⟩,
            ⟨url, payload,
              "Bearer " ++ generate_internal_token hmac (nowAt 1) secret⟩,
            ⟨url, payload,
              "Bearer " ++ generate_internal_token hmac (nowAt 2) secret⟩],
            [CALLBACK_BACKOFF_BASE ^ 1, CALLBACK_BACKOFF_BASE ^ 2], false⟩ := by
          rw [hunfold]
          simp [callbackGo, h0, h1, h2, CALLBACK_MAX_RETRIES]
        rw [ht]
        refine ⟨by simp [CALLBACK_MAX_RETRIES], ?_,
          by simp [List.range_succ], by simp [List.range_succ]⟩
        simp only [List.length_cons, List.length_nil]
        constructor
        · intro hfalse
          exact absurd hfalse (by simp)
        · rintro ⟨i, hi, ho⟩
          interval_cases i <;> simp_all

/-! ### Claim theorems: build worker -/

/-- Trace of `build_repo_image` when sandbox creation raises. -/
theorem build_trace_create_error (w : BuildWorld) (ro rn db cb bid e : String)
    (hg : ¬ (cb ≠ "" ∧ w.validate cb = false))
    (hcr : w.createResult = .error e) :
    build_repo_image w ro rn db cb bid
      = ⟨true, false, false, false, failureCallbacks cb bid e⟩ := by
  simp only [build_repo_image, if_neg hg, hcr]

/-- Trace of `build_repo_image` when the sandbox exits non-zero, raising
`BuildError`. -/
theorem build_trace_exit_nonzero (w : BuildWorld) (ro rn db cb bid : String)
    (hg : ¬ (cb ≠ "" ∧ w.validate cb = false))
    (hcr : w.createResult = .ok ()) (hrc : w.returncode ≠ 0) :
    build_repo_image w ro rn db cb bid
      = ⟨true, true, false, false,
          failureCallbacks cb bid
            ("Build sandbox exited with code " ++ toString w.returncode)⟩ := by
  simp only [build_repo_image, if_neg hg, hcr]
  rw [if_pos hrc]

/-- Trace of `build_repo_image` when the filesystem snapshot raises. -/
theorem build_trace_snapshot_error (w : BuildWorld) (ro rn db cb bid e : String)
    (hg : ¬ (cb ≠ "" ∧ w.validate cb = false))
    (hcr : w.createResult = .ok ()) (hrc : w.returncode = 0)
    (hsn : w.snapshotResult = .error e) :
    build_repo_image w ro rn db cb bid
      = ⟨true, true, true, true, failureCallbacks cb bid e⟩ := by
  simp only [build_repo_image, if_neg hg, hcr, hsn]
  rw [if_neg (by simp [hrc])]

/-- Trace of `build_repo_image` on the success path. -/
theorem build_trace_success (w : BuildWorld) (ro rn db cb bid pid : String)
    (hg : ¬ (cb ≠ "" ∧ w.validate cb = false))
    (hcr : w.createResult = .ok ()) (hrc : w.returncode = 0)
    (hsn : w.snapshotResult = .ok pid) :
    build_repo_image w ro rn db cb bid
      = ⟨true, true, true, true,
          if cb ≠ "" then
            [(cb, .success bid pid (_read_sandbox_head_sha w.shaExec) w.duration)]
          else []⟩ := by
  simp only [build_repo_image, if_neg hg, hcr, hsn]
  rw [if_neg (by simp [hrc])]

/-- C6 (SSRF guard): a non-empty `callback_url` failing the allow-list check
makes `build_repo_image` return immediately — no sandbox creation, no build
step, no HTTP call, no callback of any kind. -/
theorem ssrf_guard_rejects (w : BuildWorld) (ro rn db cb bid : String)
    (hcb : cb ≠ "") (hv : w.validate cb = false) :
    build_repo_image w ro rn db cb bid = ⟨false, false, false, false, []⟩ := by
  unfold build_repo_image
  rw [if_pos ⟨hcb, hv⟩]

/-- Witness for `ssrf_guard_rejects` at a concrete world and URL. -/
theorem ssrf_guard_rejects_witness :
    build_repo_image ⟨fun _ => false, .ok (), 0, .ok "sha", .ok "img", 7⟩
        "o" "r" "main" "https://evil.example/cb" "b1"
      = ⟨false, false, false, false, []⟩ :=
  ssrf_guard_rejects ⟨fun _ => false, .ok (), 0, .ok "sha", .ok "img", 7⟩
    "o" "r" "main" "https://evil.example/cb" "b1" (by decide) rfl

/-- C7 (build-worker callback per outcome): with a non-empty allow-listed
`callback_url`, exactly one callback is attempted; on success it is a POST
to `callback_url` with `{build_id, provider_image_id, base_sha,
build_duration_seconds}`; on any failure — sandbox creation raising, the
sandbox exiting non-zero (`BuildError`), or the snapshot raising — it is a
POST to `{callback_url_parent}/build-failed` with `{build_id, error}`. -/
theorem build_callback_per_outcome (w : BuildWorld) (ro rn db cb bid : String)
    (hcb : cb ≠ "") (hv : w.validate cb = true) :
    (build_repo_image w ro rn db cb bid).callbacks.length = 1
    ∧ (∀ pid, w.createResult = .ok () → w.returncode = 0 →
        w.snapshotResult = .ok pid →
        (build_repo_image w ro rn db cb bid).callbacks
          = [(cb, .success bid pid (_read_sandbox_head_sha w.shaExec)
              w.duration)])
    ∧ (∀ e, w.createResult = .error e →
        (build_repo_image w ro rn db cb bid).callbacks
          = [(pyRsplitSlashParent cb ++ "/build-failed", .failure bid e)])
    ∧ (w.createResult = .ok () → w.returncode ≠ 0 →
        (build_repo_image w ro rn db cb bid).callbacks
          = [(pyRsplitSlashParent cb ++ "/build-failed",
              .failure bid
                ("Build sandbox exited with code " ++ toString w.returncode))])
    ∧ (∀ e, w.createResult = .ok () → w.returncode = 0 →
        w.snapshotResult = .error e →
        (build_repo_image w ro rn db cb bid).callbacks
          = [(pyRsplitSlashParent cb ++ "/build-failed", .failure bid e)]) := by
  have hg : ¬ (cb ≠ "" ∧ w.validate cb = false) := by
    rintro ⟨-, hfalse⟩
    rw [hv] at hfalse
    exact absurd hfalse (by decide)
  have hfc : ∀ e, failureCallbacks cb bid e
      = [(pyRsplitSlashParent cb ++ "/build-failed", .failure bid e)] := by
    intro e
    unfold failureCallbacks
    rw [if_pos hcb]
  refine ⟨?_, ?_, ?_, ?_, ?_⟩
  · cases hcr : w.createResult with
    | error e => simp [build_trace_create_error w ro rn db cb bid e hg hcr, hfc]
    | ok u =>
      cases u
      by_cases hrc : w.returncode = 0
      · cases hsn : w.snapshotResult with
        | error e =>
          simp [build_trace_snapshot_error w ro rn db cb bid e hg hcr hrc hsn,
            hfc]
        | ok pid =>
          simp [build_trace_success w ro rn db cb bid pid hg hcr hrc hsn,
            if_pos hcb]
      · simp [build_trace_exit_nonzero w ro rn db cb bid hg hcr hrc, hfc]
  · intro pid hcr hrc hsn
    rw [build_trace_success w ro rn db cb bid pid hg hcr hrc hsn, if_pos hcb]
  · intro e hcr
    rw [build_trace_create_error w ro rn db cb bid e hg hcr, hfc]
  · intro hcr hrc
    rw [build_trace_exit_nonzero w ro rn db cb bid hg hcr hrc, hfc]
  · intro e hcr hrc hsn
    rw [build_trace_snapshot_error w ro rn db cb bid e hg hcr hrc hsn, hfc]

/-- Witness for `build_callback_per_outcome`: a concrete successful build
and a concrete non-zero-exit build. -/
theorem build_callback_per_outcome_witness :
    (build_repo_image ⟨fun _ => true, .ok (), 0, .ok "deadbeef", .ok "im-1", 12⟩
        "o" "r" "main" "https://cp.example.com/api/build-callback" "b1").callbacks
      = [("https://cp.example.com/api/build-callback",
          .success "b1" "im-1" "deadbeef" 12)]
    ∧ (build_repo_image ⟨fun _ => true, .ok (), 2, .ok "deadbeef", .ok "im-1", 12⟩
        "o" "r" "main" "https://cp.example.com/api/build-callback" "b1").callbacks
      = [("https://cp.example.com/api/build-failed",
          .failure "b1" "Build sandbox exited with code 2")] := by
  constructor
  · rw [(build_callback_per_outcome
      ⟨fun _ => true, .ok (), 0, .ok "deadbeef", .ok "im-1", 12⟩
      "o" "r" "main" "https://cp.example.com/api/build-callback" "b1"
      (by decide) rfl).2.1 "im-1" rfl rfl rfl]
    decide
  · rw [(build_callback_per_outcome
      ⟨fun _ => true, .ok (), 2, .ok "deadbeef", .ok "im-1", 12⟩
      "o" "r" "main" "https://cp.example.com/api/build-callback" "b1"
      (by decide) rfl).2.2.2.1 rfl (by decide)]
    decide

/-- C10 (implicit): with the empty (default) `callback_url`, the allow-list
check is bypassed entirely — the run does not depend on the validator — the
full build still runs (sandbox creation always; wait, SHA read and snapshot
when the earlier steps succeed), and no callback is emitted on either the
success or the failure path. -/
theorem empty_callback_url_builds_without_callback (w : BuildWorld)
    (v : String → Bool) (ro rn db bid : String) :
    build_repo_image { w with validate := v } ro rn db "" bid
      = build_repo_image w ro rn db "" bid
    ∧ (build_repo_image w ro rn db "" bid).callbacks = []
    ∧ (build_repo_image w ro rn db "" bid).createAttempted = true
    ∧ (w.createResult = .ok () → w.returncode = 0 →
        (build_repo_image w ro rn db "" bid).waited = true
        ∧ (build_repo_image w ro rn db "" bid).shaRead = true
        ∧ (build_repo_image w ro rn db "" bid).snapshotAttempted = true) := by
  have hg : ∀ (u : BuildWorld), ¬ (("" : String) ≠ "" ∧ u.validate "" = false) := by
    intro u
    rintro ⟨hne, -⟩
    exact hne rfl
  have hfc : ∀ e, failureCallbacks "" bid e = [] := by
    intro e
    unfold failureCallbacks
    rw [if_neg (by simp)]
  have main : ∀ (u : BuildWorld), u.createResult = w.createResult →
      u.returncode = w.returncode → u.shaExec = w.shaExec →
      u.snapshotResult = w.snapshotResult → u.duration = w.duration →
      build_repo_image u ro rn db "" bid = build_repo_image w ro rn db "" bid := by
    intro u h1 h2 h3 h4 h5
    cases hcr : w.createResult with
    | error e =>
      rw [build_trace_create_error u ro rn db "" bid e (hg u) (h1.trans hcr),
        build_trace_create_error w ro rn db "" bid e (hg w) hcr]
    | ok x =>
      cases x
      by_cases hrc : w.returncode = 0
      · cases hsn : w.snapshotResult with
        | error e =>
          rw [build_trace_snapshot_error u ro rn db "" bid e (hg u)
              (h1.trans hcr) (h2.trans hrc) (h4.trans hsn),
            build_trace_snapshot_error w ro rn db "" bid e (hg w) hcr hrc hsn]
        | ok pid =>
          rw [build_trace_success u ro rn db "" bid pid (hg u)
              (h1.trans hcr) (h2.trans hrc) (h4.trans hsn),
            build_trace_success w ro rn db "" bid pid (hg w) hcr hrc hsn,
            h3, h5]
      · rw [build_trace_exit_nonzero u ro rn db "" bid (hg u)
            (h1.trans hcr) (fun hx => hrc (h2.symm.trans hx)),
          build_trace_exit_nonzero w ro rn db "" bid (hg w) hcr
            (fun hx => hrc hx), h2]
  refine ⟨main { w with validate := v } rfl rfl rfl rfl rfl, ?_, ?_, ?_⟩
  · cases hcr : w.createResult with
    | error e => rw [build_trace_create_error w ro rn db "" bid e (hg w) hcr, hfc]
    | ok x =>
      cases x
      by_cases hrc : w.returncode = 0
      · cases hsn : w.snapshotResult with
        | error e =>
          rw [build_trace_snapshot_error w ro rn db "" bid e (hg w) hcr hrc hsn,
            hfc]
        | ok pid =>
          rw [build_trace_success w ro rn db "" bid pid (hg w) hcr hrc hsn]
          simp
      · rw [build_trace_exit_nonzero w ro rn db "" bid (hg w) hcr hrc, hfc]
  · cases hcr : w.createResult with
    | error e => rw [build_trace_create_error w ro rn db "" bid e (hg w) hcr]
    | ok x =>
      cases x
      by_cases hrc : w.returncode = 0
      · cases hsn : w.snapshotResult with
        | error e =>
          rw [build_trace_snapshot_error w ro rn db "" bid e (hg w) hcr hrc hsn]
        | ok pid =>
          rw [build_trace_success w ro rn db "" bid pid (hg w) hcr hrc hsn]
      · rw [build_trace_exit_nonzero w ro rn db "" bid (hg w) hcr hrc]
  · intro hcr hrc
    cases hsn : w.snapshotResult with
    | error e =>
      rw [build_trace_snapshot_error w ro rn db "" bid e (hg w) hcr hrc hsn]
      exact ⟨rfl, rfl, rfl⟩
    | ok pid =>
      rw [build_trace_success w ro rn db "" bid pid (hg w) hcr hrc hsn]
      exact ⟨rfl, rfl, rfl⟩

/-- Witness for `empty_callback_url_builds_without_callback` at a concrete
world whose validator rejects everything. -/
theorem empty_callback_url_builds_without_callback_witness :
    build_repo_image ⟨fun _ => false, .ok (), 0, .ok "sha", .ok "img", 3⟩
        "o" "r" "main" "" "b2"
      = build_repo_image ⟨fun _ => true, .ok (), 0, .ok "sha", .ok "img", 3⟩
          "o" "r" "main" "" "b2"
    ∧ (build_repo_image ⟨fun _ => true, .ok (), 0, .ok "sha", .ok "img", 3⟩
        "o" "r" "main" "" "b2").callbacks = []
    ∧ (build_repo_image ⟨fun _ => true, .ok (), 0, .ok "sha", .ok "img", 3⟩
        "o" "r" "main" "" "b2").snapshotAttempted = true := by
  obtain ⟨h1, h2, -, h4⟩ := empty_callback_url_builds_without_callback
    ⟨fun _ => true, .ok (), 0, .ok "sha", .ok "img", 3⟩ (fun _ => false)
    "o" "r" "main" "b2"
  exact ⟨h1, h2, (h4 rfl rfl).2.2⟩

/-! ### Concrete sanity checks -/

example : pyStrNat 1234 = "1234" := by decide
example : pyInt? "1234" = some 1234 := by decide
example : pyInt? "-5" = some (-5) := by decide
example : pyInt? "12x" = none := by decide
example : pyInt? "" = none := by decide
example : pySplitDot "17.abc" = ["17", "abc"] := by decide
example : pySplitDot "a.b.c" = ["a", "b", "c"] := by decide
example : pySplitDot "" = [""] := by decide
example :
    verify_internal_token (fun s m => s ++ ":" ++ m) 5000
      (some ("Bearer " ++ generate_internal_token (fun s m => s ++ ":" ++ m) 5000 "k")) "k"
      = true := by decide
example :
    verify_internal_token (fun s m => s ++ ":" ++ m) 400000
      (some ("Bearer " ++ generate_internal_token (fun s m => s ++ ":" ++ m) 0 "k")) "k"
      = false := by decide
